import Mathlib

/-!
# base-panel credential & abuse-prevention layer: shallow embedding

Shallow embedding, in Lean 4, of the security-lifecycle subsystem of the
base-panel repository:

* `AdvancedRateLimit` — `src/utils/advancedRateLimit.js`
* `CSRFProtection`    — `src/utils/csrfProtection.js`
* `ApiKeys`           — API key registry (`validateApiKey`, `createApiKey`, …)
* `PasswordResetSecurity` — password-reset token lifecycle
* the `POST /auth/reset-password` route handler

Timestamps are modelled as natural-number milliseconds (JS `Date.now()`).
JS `Map`/plain-object stores keyed by strings are modelled as functions
`String → Option _`; JS arrays are modelled as `List`.  The SHA-256 hash
used by the API-key registry is treated as an abstract function parameter
`hash : String → String` (the code's `hashApiKey`); properties that need
collision-freeness take injectivity of `hash` as a hypothesis.
-/

namespace AdvancedRateLimit

/-- The backoff schedule of `getBackoffDelay`
(`src/utils/advancedRateLimit.js`): 1 min, 5 min, 15 min, 1 h, 6 h, 24 h,
in milliseconds. -/
def delays : List Nat :=
  [1 * 60 * 1000, 5 * 60 * 1000, 15 * 60 * 1000,
   60 * 60 * 1000, 6 * 60 * 60 * 1000, 24 * 60 * 60 * 1000]

/-- `getBackoffDelay(attempts)`: `index = Math.min(attempts - 1, delays.length - 1)`,
then `delays[index]`.  A negative index yields JS `undefined`, modelled as
`none`. -/
def getBackoffDelay (attempts : Int) : Option Nat :=
  let index : Int := min (attempts - 1) ((delays.length : Int) - 1)
  if 0 ≤ index then delays[index.toNat]? else none

/-- The per-key record kept in `this.attempts`:
`{ count, lastAttempt, blockedUntil }`. -/
structure AttemptData where
  count : Nat
  lastAttempt : Nat
  blockedUntil : Nat
deriving Repr, DecidableEq

/-- The in-memory `Map` of attempt records, keyed by `login_<ip>`. -/
def AttemptStore := String → Option AttemptData

/-- Map update (`this.attempts.set(key, data)`). -/
def AttemptStore.set (s : AttemptStore) (k : String) (d : AttemptData) : AttemptStore :=
  fun k' => if k' = k then some d else s k'

/-- Map deletion (`this.attempts.delete(key)`). -/
def AttemptStore.del (s : AttemptStore) (k : String) : AttemptStore :=
  fun k' => if k' = k then none else s k'

/-- The empty attempt store (no prior records). -/
def AttemptStore.empty : AttemptStore := fun _ => none

/-- What the limiter middleware returns to the caller: either a 429 block
response carrying the retry-after in whole minutes
(`Math.ceil((blockedUntil - now) / 1000 / 60)`), or the request proceeds. -/
inductive LimiterResult where
  | blocked (retryAfterMinutes : Nat)
  | proceeded
deriving Repr, DecidableEq

/-- The `loginFailed` test inside the intercepted `res.end`:
`(status == 302 && location.includes('err=')) || status == 401 || status == 403`. -/
def loginFailedCheck (statusCode : Nat) (locationHasErr : Bool) : Bool :=
  (statusCode == 302 && locationHasErr) || statusCode == 401 || statusCode == 403

/-- The success test in the `else if` branch:
`status == 200 || (status == 302 && !location.includes('err='))`. -/
def loginSucceededCheck (statusCode : Nat) (locationHasErr : Bool) : Bool :=
  statusCode == 200 || (statusCode == 302 && !locationHasErr)

/-- One pass of the middleware returned by `createLoginLimiter`, for a single
request from `ip` at time `now` whose downstream handler ends with
`statusCode` and a location header that does (`locationHasErr`) or does not
contain `err=`.  Returns the limiter's visible result and the updated
attempt store.  `Nat` subtraction soundly models the JS comparisons here:
`now - lastAttempt > 24h` is false in JS whenever the difference is
negative, exactly as truncated subtraction gives `0 > 24h`. -/
def createLoginLimiterStep (s : AttemptStore) (ip : String) (now : Nat)
    (statusCode : Nat) (locationHasErr : Bool) : LimiterResult × AttemptStore :=
  let key := "login_" ++ ip
  let attemptData := (s key).getD ⟨0, now, 0⟩
  if attemptData.blockedUntil > now then
    (.blocked ((attemptData.blockedUntil - now + 60000 - 1) / 60000), s)
  else
    let attemptData :=
      if now - attemptData.lastAttempt > 24 * 60 * 60 * 1000 then
        (⟨0, now, 0⟩ : AttemptData)
      else attemptData
    if loginFailedCheck statusCode locationHasErr then
      let count := attemptData.count + 1
      let ad : AttemptData := { attemptData with count := count, lastAttempt := now }
      let ad :=
        if count ≥ 3 then
          { ad with blockedUntil := now + (getBackoffDelay ((count : Int) - 2)).getD 0 }
        else ad
      (.proceeded, s.set key ad)
    else if loginSucceededCheck statusCode locationHasErr then
      (.proceeded, s.del key)
    else
      (.proceeded, s)

/-- A failed-login request: status 302 with an `err=` redirect. -/
def failedStep (s : AttemptStore) (ip : String) (now : Nat) : LimiterResult × AttemptStore :=
  createLoginLimiterStep s ip now 302 true

end AdvancedRateLimit

namespace CSRFProtection

/-- The per-token record stored in `csrf_tokens`
(`src/utils/csrfProtection.js`): `{ timestamp, used, sessionId }`, with
`usedAt` added when the token is consumed. -/
structure TokenData where
  timestamp : Nat
  used : Bool
  usedAt : Option Nat
  sessionId : String
deriving Repr, DecidableEq

/-- The `csrf_tokens` object: token value → record. -/
def TokenStore := String → Option TokenData

/-- `csrfTokens[token] = data` (JS object assignment). -/
def TokenStore.set (s : TokenStore) (t : String) (d : TokenData) : TokenStore :=
  fun t' => if t' = t then some d else s t'

/-- `delete csrfTokens[token]`. -/
def TokenStore.del (s : TokenStore) (t : String) : TokenStore :=
  fun t' => if t' = t then none else s t'

/-- The empty token store. -/
def TokenStore.empty : TokenStore := fun _ => none

/-- `maxAge`: 1 hour in milliseconds. -/
def maxAge : Nat := 60 * 60 * 1000

/-- `createToken(sessionId)`: the freshly generated random value is the
parameter `token`; the store gains `{ timestamp: now, used: false, sessionId }`
keyed by it, and the token value is returned to the caller. -/
def createToken (s : TokenStore) (sessionId token : String) (now : Nat) : TokenStore :=
  s.set token { timestamp := now, used := false, usedAt := none, sessionId := sessionId }

/-- `validateToken(sessionId, token)` at time `now`: guards in source order —
falsy arguments, missing record, session mismatch, expiry (which deletes the
record), single-use; on success the record is marked used and re-persisted.
Returns the boolean result and the resulting store. -/
def validateToken (s : TokenStore) (sessionId token : String) (now : Nat) :
    Bool × TokenStore :=
  if sessionId = "" ∨ token = "" then (false, s)
  else
    match s token with
    | none => (false, s)
    | some tokenData =>
      if tokenData.sessionId ≠ sessionId then (false, s)
      else if now - tokenData.timestamp > maxAge then (false, s.del token)
      else if tokenData.used then (false, s)
      else
        (true, s.set token { tokenData with used := true, usedAt := some now })

/-- A sequence of further `validateToken` calls against the same token value,
each supplying its own session id and time; collects the boolean results. -/
def validateSeq (s : TokenStore) (token : String) :
    List (String × Nat) → List Bool × TokenStore
  | [] => ([], s)
  | (sid, t) :: rest =>
    let r := validateToken s sid token t
    let rs := validateSeq r.2 token rest
    (r.1 :: rs.1, rs.2)

/-- A token record is dead when it is absent or already marked used;
`validateToken` can never succeed on it again. -/
def deadToken (s : TokenStore) (token : String) : Prop :=
  s token = none ∨ ∃ d, s token = some d ∧ d.used = true

end CSRFProtection

/-- A record of the `users` table, with the fields this layer touches:
identity (`userId`, `username`, `email`), the `admin` flag consulted by
`revokeApiKey`, and the four password-reset fields that
`PasswordResetSecurity` attaches to the user record (absent fields are
`none`). -/
structure UserRec where
  userId : String
  username : String
  email : String
  admin : Bool
  resetToken : Option String := none
  resetTokenExpires : Option Nat := none
  resetTokenCreated : Option Nat := none
  resetTokenUsed : Option Bool := none
deriving Repr, DecidableEq

namespace ApiKeys

/-- A record of the `apiKeys` array (`createApiKey` in the API-key module):
`key` holds the hashed secret; `revokedAt`/`revokedBy` are added by
`revokeApiKey` and `expiredAt` by `cleanupExpiredKeys`. -/
structure ApiKeyRecord where
  id : String
  name : String
  key : String
  userId : String
  permissions : List String
  createdAt : Nat
  expiresAt : Nat
  lastUsed : Option Nat := none
  isActive : Bool := true
  usageCount : Nat := 0
  revokedAt : Option Nat := none
  revokedBy : Option String := none
  expiredAt : Option Nat := none
deriving Repr, DecidableEq

/-- What `createApiKey` returns to the caller: the plaintext secret in
`key`, plus id, name, permissions and expiry. -/
structure CreatedKey where
  id : String
  key : String
  name : String
  permissions : List String
  expiresAt : Nat
deriving Repr, DecidableEq

/-- `createApiKey(name, userId, permissions, expiresInDays)`.  The random
plaintext (`generateSecureApiKey()`) and the random uuid are the parameters
`plainKey` and `keyId`; `hash` is `hashApiKey` (SHA-256 hex).  Appends the
hashed record to the store and returns the plaintext once. -/
def createApiKey (hash : String → String) (store : List ApiKeyRecord)
    (plainKey keyId name userId : String) (permissions : List String)
    (expiresInDays now : Nat) : CreatedKey × List ApiKeyRecord :=
  let hashedKey := hash plainKey
  let apiKeyObject : ApiKeyRecord :=
    { id := keyId, name := name, key := hashedKey, userId := userId,
      permissions := permissions, createdAt := now,
      expiresAt := now + expiresInDays * 24 * 60 * 60 * 1000,
      lastUsed := none, isActive := true, usageCount := 0 }
  ({ id := keyId, key := plainKey, name := name, permissions := permissions,
     expiresAt := apiKeyObject.expiresAt },
   store ++ [apiKeyObject])

/-- The externally visible rejection body of `validateApiKey`: HTTP status,
`error` message and machine `code`. -/
structure ApiResponse where
  status : Nat
  error : String
  code : String
deriving Repr, DecidableEq

/-- The precise causes recorded into the security event sink
(`logSecurityEvent`) by `validateApiKey`. -/
inductive SecurityEvent where
  | apiKeyInvalid
  | apiKeyExpired
deriving Repr, DecidableEq

/-- The outcome of `validateApiKey`: a rejection response, or acceptance
with the metadata attached to `req.apiKey`. -/
inductive ValidateOutcome where
  | reject (resp : ApiResponse)
  | accept (id name userId : String) (permissions : List String)
deriving Repr, DecidableEq

/-- The 401 body for a missing `x-api-key` header. -/
def missingResp : ApiResponse := ⟨401, "API key is required", "MISSING_API_KEY"⟩

/-- The 401 body when no active record matches the presented hash. -/
def invalidResp : ApiResponse := ⟨401, "Invalid API key", "INVALID_API_KEY"⟩

/-- The 401 body when the matching active record is expired. -/
def expiredResp : ApiResponse := ⟨401, "API key has expired", "EXPIRED_API_KEY"⟩

/-- `validateApiKey` middleware at time `now` for a presented header value
`apiKey` (`none` models a missing header): hash the secret, find the first
record with a matching hash that is active, reject 401 on no match; reject
401 if `now > expiresAt`; otherwise update `lastUsed` and `usageCount` in
place and accept.  Returns the outcome, the events logged to the security
sink, and the resulting store. -/
def validateApiKey (hash : String → String) (store : List ApiKeyRecord)
    (apiKey : Option String) (now : Nat) :
    ValidateOutcome × List SecurityEvent × List ApiKeyRecord :=
  match apiKey with
  | none => (.reject missingResp, [], store)
  | some apiKey =>
    let hashedKey := hash apiKey
    match store.findIdx? (fun key => key.key = hashedKey ∧ key.isActive) with
    | none => (.reject invalidResp, [.apiKeyInvalid], store)
    | some keyIndex =>
      match store[keyIndex]? with
      | none => (.reject invalidResp, [.apiKeyInvalid], store)
      | some validKey =>
        if now > validKey.expiresAt then
          (.reject expiredResp, [.apiKeyExpired], store)
        else
          let updated : ApiKeyRecord :=
            { validKey with lastUsed := some now, usageCount := validKey.usageCount + 1 }
          (.accept validKey.id validKey.name validKey.userId validKey.permissions,
           [],
           store.set keyIndex updated)

/-- `revokeApiKey(keyId, userId)` at time `now`: locate the record by id;
allow the key's owner, or otherwise an actor whose user record has
`admin == true`; on success flip `isActive` and stamp `revokedAt` /
`revokedBy`, keeping the record.  Returns the boolean status and the store. -/
def revokeApiKey (store : List ApiKeyRecord) (users : List UserRec)
    (keyId userId : String) (now : Nat) : Bool × List ApiKeyRecord :=
  match store.findIdx? (fun key => key.id = keyId) with
  | none => (false, store)
  | some keyIndex =>
    match store[keyIndex]? with
    | none => (false, store)
    | some key =>
      let authorized :=
        if key.userId = userId then true
        else
          match users.find? (fun u => u.userId = userId) with
          | none => false
          | some user => user.admin
      if authorized then
        (true, store.set keyIndex
          { key with isActive := false, revokedAt := some now, revokedBy := some userId })
      else
        (false, store)

/-- `cleanupExpiredKeys()` at time `now`: walk the array, flip `isActive`
and stamp `expiredAt` on every record with `expiresAt <= now` that is still
active, count them, and keep every record (the source's `filter` callback
returns `true` on both paths).  Returns the count and the store. -/
def cleanupExpiredKeys (store : List ApiKeyRecord) (now : Nat) :
    Nat × List ApiKeyRecord :=
  ((store.filter (fun key => key.expiresAt ≤ now ∧ key.isActive)).length,
   store.map (fun key =>
     if key.expiresAt ≤ now ∧ key.isActive then
       { key with isActive := false, expiredAt := some now }
     else key))

end ApiKeys

namespace PasswordResetSecurity

/-- The `{ token, expires, created, used }` object built by
`generateResetToken()` (`src/utils/secureLogger.js`, password-reset part);
the random value is the `token` field, `expires = now + 1h`,
`created = now`, `used = false`. -/
structure ResetTokenData where
  token : String
  expires : Nat
  created : Nat
  used : Bool
deriving Repr, DecidableEq

/-- `generateResetToken()` at time `now`, with the random value supplied as
`token`. -/
def generateResetToken (token : String) (now : Nat) : ResetTokenData :=
  { token := token, expires := now + 60 * 60 * 1000, created := now, used := false }

/-- `storeResetToken(email, tokenData)`: find the user by email; if absent
the source throws (`none` here); otherwise delete any prior reset fields and
store the new token data on the user record, returning the token value and
the updated users table. -/
def storeResetToken (users : List UserRec) (email : String)
    (tokenData : ResetTokenData) : Option (String × List UserRec) :=
  match users.findIdx? (fun u => u.email = email) with
  | none => none
  | some userIndex =>
    match users[userIndex]? with
    | none => none
    | some user =>
      some (tokenData.token,
        users.set userIndex
          { user with
            resetToken := some tokenData.token,
            resetTokenExpires := some tokenData.expires,
            resetTokenCreated := some tokenData.created,
            resetTokenUsed := some tokenData.used })

/-- The result of `validateResetToken`: `{ valid: false, error }` or
`{ valid: true, user: { email, username, userId } }`. -/
inductive ResetValidation where
  | invalid (error : String)
  | valid (email username userId : String)
deriving Repr, DecidableEq

/-- `validateResetToken(token)` at time `now`: find the user holding the
token; reject unknown tokens, then expiry (a missing or zero
`resetTokenExpires` is falsy in the source and also rejects), then reuse;
on success return the minimal user identity. -/
def validateResetToken (users : List UserRec) (token : String) (now : Nat) :
    ResetValidation :=
  match users.find? (fun u => u.resetToken = some token) with
  | none => .invalid "Invalid token"
  | some user =>
    match user.resetTokenExpires with
    | none => .invalid "Token expired"
    | some expires =>
      if expires = 0 ∨ now > expires then .invalid "Token expired"
      else if user.resetTokenUsed = some true then .invalid "Token already used"
      else .valid user.email user.username user.userId

end PasswordResetSecurity

namespace AuthRoutes

/-- `POST /auth/reset-password` (auth route handler): validate the email
format (the validator outcome is the parameter `emailValid`, its sanitized
output `sanitizedEmail`); look the user up by the sanitized email; when
absent, redirect with `msg=PasswordSent` without revealing absence; when
present, generate and store a reset token (random value `tokenValue`, time
`now`), send the email, and redirect with the same `msg=PasswordSent`; the
`catch` branch redirects with `msg=PasswordResetFailed`.  Returns the
redirect location and the users table. -/
def resetPasswordPost (users : List UserRec) (emailValid : Bool)
    (sanitizedEmail tokenValue : String) (now : Nat) : String × List UserRec :=
  if !emailValid then
    ("/auth/reset-password?err=InvalidEmail", users)
  else
    match users.find? (fun u => u.email = sanitizedEmail) with
    | none => ("/auth/reset-password?msg=PasswordSent", users)
    | some _ =>
      let tokenData := PasswordResetSecurity.generateResetToken tokenValue now
      match PasswordResetSecurity.storeResetToken users sanitizedEmail tokenData with
      | some (_, users') => ("/auth/reset-password?msg=PasswordSent", users')
      | none => ("/auth/reset-password?msg=PasswordResetFailed", users)

end AuthRoutes

namespace AdvancedRateLimit

theorem getBackoffDelay_pos_isSome (a : Int) (h : 1 ≤ a) :
    (getBackoffDelay a).isSome = true := by
  unfold getBackoffDelay
  have h0 : (0 : Int) ≤ min (a - 1) ((delays.length : Int) - 1) := by
    simp only [delays, List.length]
    omega
  rw [if_pos h0]
  have h5 : (min (a - 1) ((delays.length : Int) - 1)).toNat ≤ 5 := by
    simp only [delays, List.length]
    omega
  have : (min (a - 1) ((delays.length : Int) - 1)).toNat = 0 ∨
      (min (a - 1) ((delays.length : Int) - 1)).toNat = 1 ∨
      (min (a - 1) ((delays.length : Int) - 1)).toNat = 2 ∨
      (min (a - 1) ((delays.length : Int) - 1)).toNat = 3 ∨
      (min (a - 1) ((delays.length : Int) - 1)).toNat = 4 ∨
      (min (a - 1) ((delays.length : Int) - 1)).toNat = 5 := by omega
  rcases this with h | h | h | h | h | h <;> rw [h] <;> decide

theorem getBackoffDelay_clamped (a : Int) (h : 6 ≤ a) :
    getBackoffDelay a = some 86400000 := by
  unfold getBackoffDelay
  have hm : min (a - 1) ((delays.length : Int) - 1) = 5 := by
    simp only [delays, List.length]
    omega
  rw [hm]
  decide

theorem getBackoffDelay_nonpos (a : Int) (h : a ≤ 0) :
    getBackoffDelay a = none := by
  unfold getBackoffDelay
  have hm : min (a - 1) ((delays.length : Int) - 1) < 0 := by
    simp only [delays, List.length]
    omega
  rw [if_neg (by omega)]

end AdvancedRateLimit

/-- C10: inside `createLoginLimiter`, `getBackoffDelay(count - 2)` is only
reached under the guard `count >= 3`, so its argument is at least 1; for
every argument of at least 1 the schedule index `Math.min(attempts - 1, 5)`
is in bounds and the delay is defined, clamped to the 24-hour last entry
for arguments of 6 or more; an argument of 0 or less indexes out of bounds
and yields an undefined delay. -/
theorem backoff_delay_index_safety :
    (∀ count : Nat, 3 ≤ count → 1 ≤ (count : Int) - 2) ∧
    (∀ a : Int, 1 ≤ a →
      (AdvancedRateLimit.getBackoffDelay a).isSome = true) ∧
    (∀ a : Int, 6 ≤ a →
      AdvancedRateLimit.getBackoffDelay a = some 86400000) ∧
    (∀ a : Int, a ≤ 0 → AdvancedRateLimit.getBackoffDelay a = none) :=
  ⟨fun _ h => by omega,
   AdvancedRateLimit.getBackoffDelay_pos_isSome,
   AdvancedRateLimit.getBackoffDelay_clamped,
   AdvancedRateLimit.getBackoffDelay_nonpos⟩

/-- Witness for C10 at concrete arguments 3, 1, 6 and 0. -/
theorem backoff_delay_index_safety_witness :
    (1 ≤ ((3 : Nat) : Int) - 2) ∧
    (AdvancedRateLimit.getBackoffDelay 1).isSome = true ∧
    AdvancedRateLimit.getBackoffDelay 6 = some 86400000 ∧
    AdvancedRateLimit.getBackoffDelay 0 = none :=
  ⟨backoff_delay_index_safety.1 3 (by decide),
   backoff_delay_index_safety.2.1 1 (by decide),
   backoff_delay_index_safety.2.2.1 6 (by decide),
   backoff_delay_index_safety.2.2.2 0 (by decide)⟩

namespace AdvancedRateLimit

theorem failedStep_proceed (s : AttemptStore) (ip : String) (now : Nat)
    (d : AttemptData) (hd : (s ("login_" ++ ip)).getD ⟨0, now, 0⟩ = d)
    (hnb : ¬ now < d.blockedUntil) (hnr : now - d.lastAttempt ≤ 24 * 60 * 60 * 1000) :
    (failedStep s ip now).1 = .proceeded ∧
    (failedStep s ip now).2 ("login_" ++ ip) =
      some (if d.count + 1 ≥ 3 then
          ⟨d.count + 1, now, now + (getBackoffDelay (((d.count + 1 : Nat) : Int) - 2)).getD 0⟩
        else ⟨d.count + 1, now, d.blockedUntil⟩) := by
  simp only [failedStep, createLoginLimiterStep]
  rw [hd, if_neg hnb, if_neg (by omega : ¬ now - d.lastAttempt > 24 * 60 * 60 * 1000)]
  simp only [loginFailedCheck, loginSucceededCheck]
  norm_num [AttemptStore.set]

theorem limiterStep_blocked (s : AttemptStore) (ip : String) (now : Nat)
    (d : AttemptData) (hd : (s ("login_" ++ ip)).getD ⟨0, now, 0⟩ = d)
    (hb : now < d.blockedUntil) (statusCode : Nat) (locationHasErr : Bool) :
    createLoginLimiterStep s ip now statusCode locationHasErr =
      (.blocked ((d.blockedUntil - now + 60000 - 1) / 60000), s) := by
  simp only [createLoginLimiterStep]
  rw [hd, if_pos hb]

end AdvancedRateLimit

namespace AdvancedRateLimit

/-- The store after three failed logins from `"1.2.3.4"` (no prior record)
at times 0, 1000 and 2000 ms. -/
def scenarioAfterThree : AttemptStore :=
  (failedStep (failedStep (failedStep AttemptStore.empty "1.2.3.4" 0).2
    "1.2.3.4" 1000).2 "1.2.3.4" 2000).2

end AdvancedRateLimit

/-- C1 counterexample: for identity `"1.2.3.4"` with no prior record and
failed attempts at times 0, 1000 and 2000 ms, the lockout computed at the
3rd failure is `blockedUntil = 2000 + 60000` (1 minute, not 5); the 4th
attempt at time 3000 is blocked with a 1-minute retry-after; a further
failed attempt at 70000 ms (after the window) is locked for 300000 ms
(5 minutes, not 15). -/
theorem login_backoff_schedule_counterexample :
    (AdvancedRateLimit.scenarioAfterThree "login_1.2.3.4" =
      some ⟨3, 2000, 2000 + 60000⟩) ∧
    ((AdvancedRateLimit.failedStep
        AdvancedRateLimit.scenarioAfterThree "1.2.3.4" 3000).1 =
      .blocked 1) ∧
    ((AdvancedRateLimit.failedStep
        AdvancedRateLimit.scenarioAfterThree "1.2.3.4" 70000).2 "login_1.2.3.4" =
      some ⟨4, 70000, 70000 + 300000⟩) ∧
    ¬ (60000 = 5 * 60 * 1000 ∧ 300000 = 15 * 60 * 1000) := by
  refine ⟨by decide, by decide, by decide, by decide⟩

/-- C1 amended: for a fixed client identity with no prior record, after
exactly 3 failed login attempts (none more than 24 h apart) the limiter
blocks the 4th attempt with a retry-after of 1 minute; a further failed
attempt after that block window elapses (within 24 h of the 3rd) is locked
for 5 minutes — the lockout durations computed at the 3rd and 4th
consecutive failures are 1 minute and 5 minutes respectively. -/
theorem login_backoff_schedule_amended (ip : String) (t1 t2 t3 t4 t5 : Nat)
    (w12 : t2 - t1 ≤ 24 * 60 * 60 * 1000) (w23 : t3 - t2 ≤ 24 * 60 * 60 * 1000)
    (h34 : t3 ≤ t4) (h4 : t4 < t3 + 60000)
    (h5 : t3 + 60000 ≤ t5) (w35 : t5 - t3 ≤ 24 * 60 * 60 * 1000) :
    ((AdvancedRateLimit.failedStep
        (AdvancedRateLimit.failedStep
          (AdvancedRateLimit.failedStep
            AdvancedRateLimit.AttemptStore.empty ip t1).2 ip t2).2 ip t3).2
      ("login_" ++ ip) = some ⟨3, t3, t3 + 1 * 60 * 1000⟩) ∧
    ((AdvancedRateLimit.failedStep
        (AdvancedRateLimit.failedStep
          (AdvancedRateLimit.failedStep
            (AdvancedRateLimit.failedStep
              AdvancedRateLimit.AttemptStore.empty ip t1).2 ip t2).2 ip t3).2
        ip t4).1 = .blocked 1) ∧
    ((AdvancedRateLimit.failedStep
        (AdvancedRateLimit.failedStep
          (AdvancedRateLimit.failedStep
            (AdvancedRateLimit.failedStep
              AdvancedRateLimit.AttemptStore.empty ip t1).2 ip t2).2 ip t3).2
        ip t5).2 ("login_" ++ ip) = some ⟨4, t5, t5 + 5 * 60 * 1000⟩) := by
  have gbd1 : AdvancedRateLimit.getBackoffDelay 1 = some 60000 := by decide
  have gbd2 : AdvancedRateLimit.getBackoffDelay 2 = some 300000 := by decide
  have h1 := AdvancedRateLimit.failedStep_proceed
    AdvancedRateLimit.AttemptStore.empty ip t1 ⟨0, t1, 0⟩ rfl
    (by show ¬ t1 < 0; omega) (by show t1 - t1 ≤ 24 * 60 * 60 * 1000; omega)
  norm_num at h1
  have h2 := AdvancedRateLimit.failedStep_proceed
    (AdvancedRateLimit.failedStep AdvancedRateLimit.AttemptStore.empty ip t1).2
    ip t2 ⟨1, t1, 0⟩ (by rw [h1.2]; rfl)
    (by show ¬ t2 < 0; omega) (by show t2 - t1 ≤ 24 * 60 * 60 * 1000; omega)
  norm_num at h2
  have h3 := AdvancedRateLimit.failedStep_proceed
    (AdvancedRateLimit.failedStep
      (AdvancedRateLimit.failedStep AdvancedRateLimit.AttemptStore.empty ip t1).2
      ip t2).2
    ip t3 ⟨2, t2, 0⟩ (by rw [h2.2]; rfl)
    (by show ¬ t3 < 0; omega) (by show t3 - t2 ≤ 24 * 60 * 60 * 1000; omega)
  norm_num [gbd1] at h3
  refine ⟨by rw [h3.2], ?_, ?_⟩
  · have hb := AdvancedRateLimit.limiterStep_blocked
      (AdvancedRateLimit.failedStep
        (AdvancedRateLimit.failedStep
          (AdvancedRateLimit.failedStep
            AdvancedRateLimit.AttemptStore.empty ip t1).2 ip t2).2 ip t3).2
      ip t4 ⟨3, t3, t3 + 60000⟩
      (by rw [h3.2]; rfl) (by show t4 < t3 + 60000; omega) 302 true
    show (AdvancedRateLimit.createLoginLimiterStep _ ip t4 302 true).1 =
      AdvancedRateLimit.LimiterResult.blocked 1
    rw [hb]
    show AdvancedRateLimit.LimiterResult.blocked
      (((⟨3, t3, t3 + 60000⟩ : AdvancedRateLimit.AttemptData).blockedUntil
        - t4 + 60000 - 1) / 60000) = AdvancedRateLimit.LimiterResult.blocked 1
    have hr : ((⟨3, t3, t3 + 60000⟩ : AdvancedRateLimit.AttemptData).blockedUntil
        - t4 + 60000 - 1) / 60000 = 1 := by
      show (t3 + 60000 - t4 + 60000 - 1) / 60000 = 1
      omega
    rw [hr]
  · have h5' := AdvancedRateLimit.failedStep_proceed
      (AdvancedRateLimit.failedStep
        (AdvancedRateLimit.failedStep
          (AdvancedRateLimit.failedStep
            AdvancedRateLimit.AttemptStore.empty ip t1).2 ip t2).2 ip t3).2
      ip t5 ⟨3, t3, t3 + 60000⟩
      (by rw [h3.2]; rfl) (by show ¬ t5 < t3 + 60000; omega)
      (by show t5 - t3 ≤ 24 * 60 * 60 * 1000; omega)
    norm_num [gbd2] at h5'
    rw [h5'.2]

/-- Witness for the amended C1 at identity `"1.2.3.4"` and times 0, 1000,
2000, 3000 and 70000 ms. -/
theorem login_backoff_schedule_amended_witness :
    (1000 - 0 ≤ 24 * 60 * 60 * 1000) ∧ (2000 - 1000 ≤ 24 * 60 * 60 * 1000) ∧
    (2000 ≤ 3000) ∧ (3000 < 2000 + 60000) ∧
    (2000 + 60000 ≤ 70000) ∧ (70000 - 2000 ≤ 24 * 60 * 60 * 1000) ∧
    (((AdvancedRateLimit.failedStep
        (AdvancedRateLimit.failedStep
          (AdvancedRateLimit.failedStep
            AdvancedRateLimit.AttemptStore.empty "1.2.3.4" 0).2 "1.2.3.4" 1000).2
        "1.2.3.4" 2000).2
      ("login_" ++ "1.2.3.4") = some ⟨3, 2000, 2000 + 1 * 60 * 1000⟩) ∧
    ((AdvancedRateLimit.failedStep
        (AdvancedRateLimit.failedStep
          (AdvancedRateLimit.failedStep
            (AdvancedRateLimit.failedStep
              AdvancedRateLimit.AttemptStore.empty "1.2.3.4" 0).2 "1.2.3.4" 1000).2
          "1.2.3.4" 2000).2
        "1.2.3.4" 3000).1 = .blocked 1) ∧
    ((AdvancedRateLimit.failedStep
        (AdvancedRateLimit.failedStep
          (AdvancedRateLimit.failedStep
            (AdvancedRateLimit.failedStep
              AdvancedRateLimit.AttemptStore.empty "1.2.3.4" 0).2 "1.2.3.4" 1000).2
          "1.2.3.4" 2000).2
        "1.2.3.4" 70000).2 ("login_" ++ "1.2.3.4") =
      some ⟨4, 70000, 70000 + 5 * 60 * 1000⟩)) :=
  ⟨by norm_num, by norm_num, by norm_num, by norm_num, by norm_num, by norm_num,
   login_backoff_schedule_amended "1.2.3.4" 0 1000 2000 3000 70000
     (by norm_num) (by norm_num) (by norm_num) (by norm_num)
     (by norm_num) (by norm_num)⟩

namespace CSRFProtection

theorem deadToken_step (s : TokenStore) (token : String)
    (hdead : deadToken s token) (sid : String) (t : Nat) :
    (validateToken s sid token t).1 = false ∧
    deadToken (validateToken s sid token t).2 token := by
  unfold validateToken
  by_cases hg : sid = "" ∨ token = ""
  · rw [if_pos hg]
    exact ⟨rfl, hdead⟩
  · rw [if_neg hg]
    rcases hdead with hnone | ⟨d, hd, hused⟩
    · simp only [hnone]
      exact ⟨by simp, Or.inl hnone⟩
    · simp only [hd]
      by_cases hs : d.sessionId ≠ sid
      · rw [if_pos hs]
        exact ⟨rfl, Or.inr ⟨d, hd, hused⟩⟩
      · rw [if_neg hs]
        by_cases hexp : t - d.timestamp > maxAge
        · rw [if_pos hexp]
          refine ⟨rfl, Or.inl ?_⟩
          simp [TokenStore.del]
        · rw [if_neg hexp, if_pos hused]
          exact ⟨rfl, Or.inr ⟨d, hd, hused⟩⟩

theorem deadToken_validateSeq (token : String) (calls : List (String × Nat)) :
    ∀ s : TokenStore, deadToken s token →
      ∀ b ∈ (validateSeq s token calls).1, b = false := by
  induction calls with
  | nil => intro s _ b hb; simp [validateSeq] at hb
  | cons c rest ih =>
    intro s hdead b hb
    obtain ⟨sid, t⟩ := c
    have hstep := deadToken_step s token hdead sid t
    simp only [validateSeq, List.mem_cons] at hb
    rcases hb with hb | hb
    · rw [hb, hstep.1]
    · exact ih _ hstep.2 b hb

theorem validateToken_fresh (s : TokenStore) (sid token : String) (tc tv : Nat)
    (hsid : ¬ sid = "") (htok : ¬ token = "") (hage : tv - tc ≤ maxAge) :
    (validateToken (createToken s sid token tc) sid token tv).1 = true ∧
    (validateToken (createToken s sid token tc) sid token tv).2 token =
      some ⟨tc, true, some tv, sid⟩ := by
  have hkey : (createToken s sid token tc) token =
      some ⟨tc, false, none, sid⟩ := by
    simp [createToken, TokenStore.set]
  unfold validateToken
  rw [if_neg (show ¬ (sid = "" ∨ token = "") by simp [hsid, htok])]
  simp only [hkey]
  simp [show ¬ tv - tc > maxAge from by omega, TokenStore.set]

end CSRFProtection

/-- C3: for every CSRF token created by `createToken(sessionId)`, a first
`validateToken(sessionId, token)` within the 1-hour `maxAge` returns true
and marks the token used, and every subsequent `validateToken` call with
the same token value (any session, any time) returns false, permanently —
strict single-use with no reuse grace window. -/
theorem csrf_token_single_use (s : CSRFProtection.TokenStore)
    (sid token : String) (tc tv : Nat)
    (hsid : sid ≠ "") (htok : token ≠ "") (hage : tv - tc ≤ CSRFProtection.maxAge) :
    (CSRFProtection.validateToken
      (CSRFProtection.createToken s sid token tc) sid token tv).1 = true ∧
    (CSRFProtection.validateToken
      (CSRFProtection.createToken s sid token tc) sid token tv).2 token =
      some ⟨tc, true, some tv, sid⟩ ∧
    ∀ calls : List (String × Nat),
      ∀ b ∈ (CSRFProtection.validateSeq
        (CSRFProtection.validateToken
          (CSRFProtection.createToken s sid token tc) sid token tv).2
        token calls).1, b = false := by
  obtain ⟨h1, h2⟩ := CSRFProtection.validateToken_fresh s sid token tc tv hsid htok hage
  refine ⟨h1, h2, fun calls => CSRFProtection.deadToken_validateSeq token calls _ ?_⟩
  exact Or.inr ⟨_, h2, rfl⟩

/-- Witness for C3: a concrete token for session `"sess1"` created at time 0
and first validated at time 1000, then replayed twice. -/
theorem csrf_token_single_use_witness :
    ("sess1" : String) ≠ "" ∧ ("tok1" : String) ≠ "" ∧
    (1000 - 0 ≤ CSRFProtection.maxAge) ∧
    ((CSRFProtection.validateToken
      (CSRFProtection.createToken CSRFProtection.TokenStore.empty "sess1" "tok1" 0)
      "sess1" "tok1" 1000).1 = true ∧
    (CSRFProtection.validateToken
      (CSRFProtection.createToken CSRFProtection.TokenStore.empty "sess1" "tok1" 0)
      "sess1" "tok1" 1000).2 "tok1" = some ⟨0, true, some 1000, "sess1"⟩ ∧
    ∀ b ∈ (CSRFProtection.validateSeq
      (CSRFProtection.validateToken
        (CSRFProtection.createToken CSRFProtection.TokenStore.empty "sess1" "tok1" 0)
        "sess1" "tok1" 1000).2
      "tok1" [("sess1", 2000), ("sess1", 3000)]).1, b = false) :=
  ⟨by decide, by decide, by decide,
   (csrf_token_single_use CSRFProtection.TokenStore.empty "sess1" "tok1" 0 1000
     (by decide) (by decide) (by decide)).1,
   (csrf_token_single_use CSRFProtection.TokenStore.empty "sess1" "tok1" 0 1000
     (by decide) (by decide) (by decide)).2.1,
   fun b hb =>
     (csrf_token_single_use CSRFProtection.TokenStore.empty "sess1" "tok1" 0 1000
       (by decide) (by decide) (by decide)).2.2 [("sess1", 2000), ("sess1", 3000)] b hb⟩

namespace ApiKeys

/-- A concrete stand-in for the SHA-256 hex digest used in witnesses and
counterexamples; injective, as the claims' instances require. -/
def testHash (s : String) : String := "h" ++ s

/-- A stored key that is still active but expired at time 200: secret
`"secret"`, hash `testHash "secret"`, `expiresAt = 100`. -/
def sampleExpiredKey : ApiKeyRecord :=
  { id := "k1", name := "primary", key := testHash "secret", userId := "u1",
    permissions := ["read"], createdAt := 0, expiresAt := 100 }

end ApiKeys

/-- C2 counterexample: with a single stored key that is active but expired
(`expiresAt = 100`) at validation time 200, presenting the correct secret
is rejected with `EXPIRED_API_KEY` (`"API key has expired"`), while
presenting a non-matching secret is rejected with `INVALID_API_KEY`
(`"Invalid API key"`): the two failure causes produce different externally
visible reasons, so validateApiKey does distinguish them. -/
theorem api_key_failure_oracle_counterexample :
    ApiKeys.validateApiKey ApiKeys.testHash [ApiKeys.sampleExpiredKey]
      (some "secret") 200 =
      (.reject ApiKeys.expiredResp, [.apiKeyExpired], [ApiKeys.sampleExpiredKey]) ∧
    ApiKeys.validateApiKey ApiKeys.testHash [ApiKeys.sampleExpiredKey]
      (some "wrong") 200 =
      (.reject ApiKeys.invalidResp, [.apiKeyInvalid], [ApiKeys.sampleExpiredKey]) ∧
    ApiKeys.expiredResp ≠ ApiKeys.invalidResp := by
  refine ⟨by decide, by decide, by decide⟩

/-- C2 amended: every failure of `validateApiKey` is an HTTP 401; a secret
matching no stored hash and a secret whose only matching key is revoked
(`isActive == false`) are externally indistinguishable — both yield exactly
the `INVALID_API_KEY` rejection, with the cause recorded in the security
event sink — but a secret whose matching active key is expired yields the
distinct `EXPIRED_API_KEY` rejection (again recorded in the sink), so the
expired cause is externally distinguishable from the other two. -/
theorem api_key_failure_oracle_amended (hash : String → String)
    (store : List ApiKeys.ApiKeyRecord) (secret : String) (now : Nat) :
    (∀ resp evs store',
      ApiKeys.validateApiKey hash store (some secret) now =
        (.reject resp, evs, store') → resp.status = 401) ∧
    (store.findIdx? (fun k => k.key = hash secret ∧ k.isActive) = none →
      ApiKeys.validateApiKey hash store (some secret) now =
        (.reject ApiKeys.invalidResp, [.apiKeyInvalid], store)) ∧
    (∀ i k, store.findIdx? (fun k => k.key = hash secret ∧ k.isActive) = some i →
      store[i]? = some k → now > k.expiresAt →
      k.isActive = true ∧
      ApiKeys.validateApiKey hash store (some secret) now =
        (.reject ApiKeys.expiredResp, [.apiKeyExpired], store)) := by
  refine ⟨?_, ?_, ?_⟩
  · intro resp evs store' h
    unfold ApiKeys.validateApiKey at h
    rcases hf : store.findIdx? (fun k => k.key = hash secret ∧ k.isActive) with _ | i
    · simp only [hf] at h
      injection h with h1 h2
      injection h1 with h1
      rw [← h1]
      rfl
    · simp only [hf] at h
      rcases hg : store[i]? with _ | k
      · simp only [hg] at h
        injection h with h1 h2
        injection h1 with h1
        rw [← h1]
        rfl
      · simp only [hg] at h
        by_cases hexp : now > k.expiresAt
        · rw [if_pos hexp] at h
          injection h with h1 h2
          injection h1 with h1
          rw [← h1]
          rfl
        · rw [if_neg hexp] at h
          simp at h
  · intro hf
    unfold ApiKeys.validateApiKey
    simp only [hf]
  · intro i k hf hg hexp
    have hp := List.findIdx?_eq_some_iff_getElem.mp hf
    obtain ⟨hi, hpk, -⟩ := hp
    have hk : store[i] = k := by
      have := List.getElem?_eq_getElem hi
      rw [hg] at this
      exact (Option.some.injEq _ _).mp this.symm
    refine ⟨?_, ?_⟩
    · rw [hk] at hpk
      simp at hpk
      exact hpk.2
    · unfold ApiKeys.validateApiKey
      simp only [hf, hg]
      rw [if_pos hexp]

namespace ApiKeys

/-- A stored key for the same secret that has been revoked
(`isActive = false`) and is far from expiry. -/
def sampleRevokedKey : ApiKeyRecord :=
  { id := "k2", name := "revoked", key := testHash "secret", userId := "u1",
    permissions := ["read"], createdAt := 0, expiresAt := 1000000000,
    isActive := false, revokedAt := some 50, revokedBy := some "u1" }

end ApiKeys

/-- Witness for the amended C2: a revoked key yields the `INVALID_API_KEY`
rejection, every rejection carries status 401, and the expired active key
yields the `EXPIRED_API_KEY` rejection. -/
theorem api_key_failure_oracle_amended_witness :
    (ApiKeys.validateApiKey ApiKeys.testHash [ApiKeys.sampleRevokedKey]
      (some "secret") 200 =
      (.reject ApiKeys.invalidResp, [.apiKeyInvalid], [ApiKeys.sampleRevokedKey])) ∧
    ApiKeys.invalidResp.status = 401 ∧
    (ApiKeys.sampleExpiredKey.isActive = true ∧
     ApiKeys.validateApiKey ApiKeys.testHash [ApiKeys.sampleExpiredKey]
       (some "secret") 200 =
       (.reject ApiKeys.expiredResp, [.apiKeyExpired], [ApiKeys.sampleExpiredKey])) :=
  ⟨(api_key_failure_oracle_amended ApiKeys.testHash [ApiKeys.sampleRevokedKey]
      "secret" 200).2.1 (by decide),
   (api_key_failure_oracle_amended ApiKeys.testHash [ApiKeys.sampleExpiredKey]
      "wrong" 200).1 ApiKeys.invalidResp [.apiKeyInvalid] [ApiKeys.sampleExpiredKey]
      (by decide),
   (api_key_failure_oracle_amended ApiKeys.testHash [ApiKeys.sampleExpiredKey]
      "secret" 200).2.2 0 ApiKeys.sampleExpiredKey (by decide) (by decide) (by decide)⟩

namespace ApiKeys

theorem validateApiKey_expired_eq (hash : String → String)
    (store : List ApiKeyRecord) (secret : String) (now i : Nat) (k : ApiKeyRecord)
    (hf : store.findIdx? (fun k => k.key = hash secret ∧ k.isActive) = some i)
    (hg : store[i]? = some k) (hexp : now > k.expiresAt) :
    validateApiKey hash store (some secret) now =
      (.reject expiredResp, [.apiKeyExpired], store) := by
  unfold validateApiKey
  simp only [hf, hg]
  rw [if_pos hexp]

theorem findIdx?_key_active (hash : String → String)
    (store : List ApiKeyRecord) (secret : String) (i : Nat) (k : ApiKeyRecord)
    (hf : store.findIdx? (fun k => k.key = hash secret ∧ k.isActive) = some i)
    (hg : store[i]? = some k) : k.isActive = true := by
  obtain ⟨hi, hpk, -⟩ := List.findIdx?_eq_some_iff_getElem.mp hf
  have hk : store[i] = k := by
    have := List.getElem?_eq_getElem hi
    rw [hg] at this
    exact (Option.some.injEq _ _).mp this.symm
  rw [hk] at hpk
  simp at hpk
  exact hpk.2

theorem testHash_injective : Function.Injective testHash := by
  intro a b h
  have hd := congrArg String.data h
  simp only [testHash, String.data_append] at hd
  exact String.ext (List.append_cancel_left hd)

end ApiKeys

/-- C5: whenever the first stored record whose hash matches the presented
secret and whose `isActive` flag is set has `expiresAt` in the past at
validation time, `validateApiKey` rejects with the 401 expired response
even though `isActive` is true, and the store — in particular the key's
`lastUsed` and `usageCount` fields — is left entirely unchanged. -/
theorem api_key_expiry_trumps_active (hash : String → String)
    (store : List ApiKeys.ApiKeyRecord) (secret : String) (now i : Nat)
    (k : ApiKeys.ApiKeyRecord)
    (hf : store.findIdx? (fun k => k.key = hash secret ∧ k.isActive) = some i)
    (hg : store[i]? = some k) (hexp : k.expiresAt < now) :
    k.isActive = true ∧
    ApiKeys.validateApiKey hash store (some secret) now =
      (.reject ApiKeys.expiredResp, [.apiKeyExpired], store) ∧
    ApiKeys.expiredResp.status = 401 :=
  ⟨ApiKeys.findIdx?_key_active hash store secret i k hf hg,
   ApiKeys.validateApiKey_expired_eq hash store secret now i k hf hg hexp,
   rfl⟩

/-- Witness for C5: the sample active-but-expired key presented with its
correct secret at time 200. -/
theorem api_key_expiry_trumps_active_witness :
    ([ApiKeys.sampleExpiredKey].findIdx?
      (fun k => k.key = ApiKeys.testHash "secret" ∧ k.isActive) = some 0) ∧
    ([ApiKeys.sampleExpiredKey][0]? = some ApiKeys.sampleExpiredKey) ∧
    (ApiKeys.sampleExpiredKey.expiresAt < 200) ∧
    (ApiKeys.sampleExpiredKey.isActive = true ∧
     ApiKeys.validateApiKey ApiKeys.testHash [ApiKeys.sampleExpiredKey]
       (some "secret") 200 =
       (.reject ApiKeys.expiredResp, [.apiKeyExpired], [ApiKeys.sampleExpiredKey]) ∧
     ApiKeys.expiredResp.status = 401) :=
  ⟨by decide, by decide, by decide,
   api_key_expiry_trumps_active ApiKeys.testHash [ApiKeys.sampleExpiredKey]
     "secret" 200 0 ApiKeys.sampleExpiredKey (by decide) (by decide) (by decide)⟩

namespace ApiKeys

/-- Whether a `validateApiKey` outcome accepted the presented secret. -/
def ValidateOutcome.isAccept : ValidateOutcome → Bool
  | .reject _ => false
  | .accept _ _ _ _ => true

end ApiKeys

/-- C4: a `createApiKey` call appends a record whose `key` field is the
one-way hash of the returned plaintext; no stored string field equals the
plaintext (given that the hash, the generated uuid and the caller-supplied
fields differ from it, as 128-hex-character random secrets do); the
plaintext appears only in the returned object; and, for the resulting
store, `validateApiKey` accepts exactly the original secret and rejects
every other string (for an injective hash). -/
theorem api_key_hash_only_storage (hash : String → String)
    (hinj : Function.Injective hash)
    (plainKey keyId name userId : String) (permissions : List String)
    (expiresInDays now tv : Nat)
    (hid : keyId ≠ plainKey) (hname : name ≠ plainKey) (huser : userId ≠ plainKey)
    (hperm : plainKey ∉ permissions) (hhash : hash plainKey ≠ plainKey)
    (htv : tv ≤ now + expiresInDays * (24 * 60 * 60 * 1000)) :
    (ApiKeys.createApiKey hash [] plainKey keyId name userId permissions
      expiresInDays now).1.key = plainKey ∧
    (ApiKeys.createApiKey hash [] plainKey keyId name userId permissions
      expiresInDays now).2 =
      [{ id := keyId, name := name, key := hash plainKey, userId := userId,
         permissions := permissions, createdAt := now,
         expiresAt := now + expiresInDays * (24 * 60 * 60 * 1000) }] ∧
    (∀ r ∈ (ApiKeys.createApiKey hash [] plainKey keyId name userId permissions
        expiresInDays now).2,
      r.key = hash plainKey ∧ r.id ≠ plainKey ∧ r.name ≠ plainKey ∧
      r.key ≠ plainKey ∧ r.userId ≠ plainKey ∧ plainKey ∉ r.permissions) ∧
    (∀ s : String,
      (ApiKeys.validateApiKey hash
        (ApiKeys.createApiKey hash [] plainKey keyId name userId permissions
          expiresInDays now).2 (some s) tv).1.isAccept = true ↔ s = plainKey) := by
  refine ⟨rfl, by simp [ApiKeys.createApiKey]; omega, ?_, ?_⟩
  · intro r hr
    simp only [ApiKeys.createApiKey, List.nil_append, List.mem_singleton] at hr
    subst hr
    exact ⟨rfl, hid, hname, hhash, huser, hperm⟩
  · intro s
    by_cases hs : s = plainKey
    · subst hs
      have hfind : (ApiKeys.createApiKey hash [] s keyId name userId permissions
          expiresInDays now).2.findIdx?
            (fun k => k.key = hash s ∧ k.isActive) = some 0 := by
        simp [ApiKeys.createApiKey, List.findIdx?_cons]
      have hget : (ApiKeys.createApiKey hash [] s keyId name userId permissions
          expiresInDays now).2[0]? =
          some { id := keyId, name := name, key := hash s, userId := userId,
                 permissions := permissions, createdAt := now,
                 expiresAt := now + expiresInDays * 24 * 60 * 60 * 1000 } := by
        simp [ApiKeys.createApiKey]
      unfold ApiKeys.validateApiKey
      simp only [hfind, hget]
      rw [if_neg (show ¬ tv > now + expiresInDays * 24 * 60 * 60 * 1000 by omega)]
      simp [ApiKeys.ValidateOutcome.isAccept]
    · have hne : hash plainKey ≠ hash s := fun h => hs (hinj h).symm
      have hfind : (ApiKeys.createApiKey hash [] plainKey keyId name userId
          permissions expiresInDays now).2.findIdx?
            (fun k => k.key = hash s ∧ k.isActive) = none := by
        simp [ApiKeys.createApiKey, List.findIdx?_cons, hne]
      unfold ApiKeys.validateApiKey
      simp only [hfind]
      simp [ApiKeys.ValidateOutcome.isAccept, hs]

/-- Witness for C4: a concrete key created from secret `"secret"` with the
injective stand-in hash, validated at time 50 within the 1-day ttl. -/
theorem api_key_hash_only_storage_witness :
    Function.Injective ApiKeys.testHash ∧
    ("id1" : String) ≠ "secret" ∧ ("n1" : String) ≠ "secret" ∧
    ("u1" : String) ≠ "secret" ∧ ("secret" : String) ∉ (["read"] : List String) ∧
    ApiKeys.testHash "secret" ≠ "secret" ∧
    (50 ≤ 0 + 1 * (24 * 60 * 60 * 1000)) ∧
    ((ApiKeys.createApiKey ApiKeys.testHash [] "secret" "id1" "n1" "u1" ["read"]
        1 0).1.key = "secret" ∧
     (ApiKeys.createApiKey ApiKeys.testHash [] "secret" "id1" "n1" "u1" ["read"]
        1 0).2 =
       [{ id := "id1", name := "n1", key := ApiKeys.testHash "secret",
          userId := "u1", permissions := ["read"], createdAt := 0,
          expiresAt := 0 + 1 * (24 * 60 * 60 * 1000) }] ∧
     (∀ r ∈ (ApiKeys.createApiKey ApiKeys.testHash [] "secret" "id1" "n1" "u1"
         ["read"] 1 0).2,
       r.key = ApiKeys.testHash "secret" ∧ r.id ≠ "secret" ∧ r.name ≠ "secret" ∧
       r.key ≠ "secret" ∧ r.userId ≠ "secret" ∧ "secret" ∉ r.permissions) ∧
     (∀ s : String,
       (ApiKeys.validateApiKey ApiKeys.testHash
         (ApiKeys.createApiKey ApiKeys.testHash [] "secret" "id1" "n1" "u1"
           ["read"] 1 0).2 (some s) 50).1.isAccept = true ↔ s = "secret")) :=
  ⟨ApiKeys.testHash_injective, by decide, by decide, by decide, by decide,
   by decide, by decide,
   api_key_hash_only_storage ApiKeys.testHash ApiKeys.testHash_injective
     "secret" "id1" "n1" "u1" ["read"] 1 0 50
     (by decide) (by decide) (by decide) (by decide) (by decide) (by decide)⟩

namespace ApiKeys

/-- The authorization test of `revokeApiKey`: the actor owns the key, or
the actor's user record (looked up by `userId`) has `admin == true`. -/
def revokeAuthorized (users : List UserRec) (k : ApiKeyRecord) (userId : String) : Prop :=
  k.userId = userId ∨
    ∃ u, users.find? (fun u => u.userId = userId) = some u ∧ u.admin = true

instance (users : List UserRec) (k : ApiKeyRecord) (userId : String) :
    Decidable (revokeAuthorized users k userId) := by
  unfold revokeAuthorized
  infer_instance

theorem revokeApiKey_auth_eq (store : List ApiKeyRecord) (users : List UserRec)
    (keyId userId : String) (now i : Nat) (k : ApiKeyRecord)
    (hf : store.findIdx? (fun k => k.id = keyId) = some i)
    (hg : store[i]? = some k) :
    revokeApiKey store users keyId userId now =
      (if revokeAuthorized users k userId then
        (true, store.set i
          { k with isActive := false, revokedAt := some now, revokedBy := some userId })
      else (false, store)) := by
  unfold revokeApiKey
  simp only [hf, hg]
  by_cases hown : k.userId = userId
  · rw [if_pos hown,
      if_pos (show revokeAuthorized users k userId from Or.inl hown)]
    simp
  · rw [if_neg hown]
    rcases hu : users.find? (fun u => u.userId = userId) with _ | u
    · simp only [hu]
      have hnauth : ¬ revokeAuthorized users k userId := by
        rintro (h | ⟨u', hu', -⟩)
        · exact hown h
        · rw [hu] at hu'
          cases hu'
      rw [if_neg hnauth]
      simp
    · simp only [hu]
      by_cases hadm : u.admin = true
      · rw [hadm,
          if_pos (show revokeAuthorized users k userId from Or.inr ⟨u, hu, hadm⟩)]
        simp
      · have hadm' : u.admin = false := by
          cases h : u.admin
          · rfl
          · exact absurd h hadm
        have hnauth : ¬ revokeAuthorized users k userId := by
          rintro (h | ⟨u', hu', ha'⟩)
          · exact hown h
          · rw [hu] at hu'
            cases hu'
            exact hadm ha'
        rw [hadm', if_neg hnauth]
        simp

end ApiKeys

/-- C7: `revokeApiKey(keyId, actorId)` returns true exactly when a record
with that id exists (the first such, by index) and the actor is the key's
owner or an administrator; on success the record is replaced in place with
`isActive := false`, `revokedAt` and `revokedBy` stamped; and in every case
the number of stored records is unchanged — no record is ever removed. -/
theorem revoke_api_key_owner_or_admin_audit (store : List ApiKeys.ApiKeyRecord)
    (users : List UserRec) (keyId userId : String) (now : Nat) :
    ((ApiKeys.revokeApiKey store users keyId userId now).1 = true ↔
      ∃ i k, store.findIdx? (fun k => k.id = keyId) = some i ∧
        store[i]? = some k ∧ ApiKeys.revokeAuthorized users k userId) ∧
    ((ApiKeys.revokeApiKey store users keyId userId now).2.length = store.length) ∧
    (∀ i k, store.findIdx? (fun k => k.id = keyId) = some i →
      store[i]? = some k → ApiKeys.revokeAuthorized users k userId →
      (ApiKeys.revokeApiKey store users keyId userId now).2[i]? =
        some { k with isActive := false, revokedAt := some now,
                      revokedBy := some userId }) := by
  rcases hf : store.findIdx? (fun k => k.id = keyId) with _ | i
  · have heq : ApiKeys.revokeApiKey store users keyId userId now = (false, store) := by
      unfold ApiKeys.revokeApiKey
      simp only [hf]
    refine ⟨?_, by rw [heq], ?_⟩
    · rw [heq]
      constructor
      · intro h
        cases h
      · rintro ⟨i, k, hf', -⟩
        rw [hf] at hf'
        cases hf'
    · intro i k hf' _ _
      rw [hf] at hf'
      cases hf'
  · obtain ⟨hi, -, -⟩ := List.findIdx?_eq_some_iff_getElem.mp hf
    have hg : store[i]? = some store[i] := List.getElem?_eq_getElem hi
    have heq := ApiKeys.revokeApiKey_auth_eq store users keyId userId now i
      store[i] hf hg
    by_cases hauth : ApiKeys.revokeAuthorized users store[i] userId
    · rw [if_pos hauth] at heq
      refine ⟨?_, ?_, ?_⟩
      · rw [heq]
        exact ⟨fun _ => ⟨i, store[i], hf, hg, hauth⟩, fun _ => rfl⟩
      · rw [heq]
        exact List.length_set store i _
      · intro i' k' hf' hg' _
        rw [hf] at hf'
        injection hf' with h
        subst h
        rw [hg] at hg'
        injection hg' with h
        subst h
        rw [heq]
        exact List.getElem?_set_self hi
    · rw [if_neg hauth] at heq
      refine ⟨?_, by rw [heq], ?_⟩
      · rw [heq]
        constructor
        · intro h
          cases h
        · rintro ⟨i', k', hf', hg', hauth'⟩
          rw [hf] at hf'
          injection hf' with h
          subst h
          rw [hg] at hg'
          injection hg' with h
          subst h
          exact absurd hauth' hauth
      · intro i' k' hf' hg' hauth'
        rw [hf] at hf'
        injection hf' with h
        subst h
        rw [hg] at hg'
        injection hg' with h
        subst h
        exact absurd hauth' hauth

/-- Witness for C7: the owner revokes their own key; the store keeps one
record, now inactive with the revocation stamps. -/
theorem revoke_api_key_owner_or_admin_audit_witness :
    ((ApiKeys.revokeApiKey [ApiKeys.sampleExpiredKey] [] "k1" "u1" 77).2.length = 1) ∧
    ((ApiKeys.revokeApiKey [ApiKeys.sampleExpiredKey] [] "k1" "u1" 77).2[0]? =
      some { ApiKeys.sampleExpiredKey with
        isActive := false, revokedAt := some 77, revokedBy := some "u1" }) ∧
    ((ApiKeys.revokeApiKey [ApiKeys.sampleExpiredKey] [] "k1" "u1" 77).1 = true) :=
  ⟨(revoke_api_key_owner_or_admin_audit [ApiKeys.sampleExpiredKey] [] "k1" "u1" 77).2.1.trans
     rfl,
   (revoke_api_key_owner_or_admin_audit [ApiKeys.sampleExpiredKey] [] "k1" "u1" 77).2.2
     0 ApiKeys.sampleExpiredKey (by decide) (by decide) (Or.inl (by decide)),
   ((revoke_api_key_owner_or_admin_audit [ApiKeys.sampleExpiredKey] [] "k1" "u1" 77).1).mpr
     ⟨0, ApiKeys.sampleExpiredKey, by decide, by decide, Or.inl (by decide)⟩⟩

namespace ApiKeys

theorem cleanup_fst (store : List ApiKeyRecord) (now : Nat) :
    (cleanupExpiredKeys store now).1 =
      (store.filter (fun key => key.expiresAt ≤ now ∧ key.isActive)).length := rfl

theorem cleanup_snd (store : List ApiKeyRecord) (now : Nat) :
    (cleanupExpiredKeys store now).2 =
      store.map (fun key => if key.expiresAt ≤ now ∧ key.isActive then
        { key with isActive := false, expiredAt := some now } else key) := rfl

theorem cleanup_mem_not_flippable (store : List ApiKeyRecord) (now : Nat) :
    ∀ k ∈ (cleanupExpiredKeys store now).2,
      ¬ (k.expiresAt ≤ now ∧ k.isActive = true) := by
  intro k hk
  rw [cleanup_snd] at hk
  simp only [List.mem_map] at hk
  obtain ⟨k0, -, hk0⟩ := hk
  by_cases h0 : k0.expiresAt ≤ now ∧ k0.isActive = true
  · rw [if_pos h0] at hk0
    rw [← hk0]
    rintro ⟨-, hact⟩
    exact Bool.false_ne_true hact
  · rw [if_neg h0] at hk0
    rw [← hk0]
    exact h0

end ApiKeys

/-- C8: `cleanupExpiredKeys` is idempotent — at a fixed time, a second run
leaves the store exactly as the first left it and reports 0 records
cleaned; each run keeps every record (same length), returning each record
unchanged unless it was active with `expiresAt` in the past, in which case
only `isActive` is flipped to false (and the `expiredAt` stamp added). -/
theorem cleanup_expired_keys_idempotent (store : List ApiKeys.ApiKeyRecord)
    (now : Nat) :
    (ApiKeys.cleanupExpiredKeys (ApiKeys.cleanupExpiredKeys store now).2 now).2 =
      (ApiKeys.cleanupExpiredKeys store now).2 ∧
    (ApiKeys.cleanupExpiredKeys (ApiKeys.cleanupExpiredKeys store now).2 now).1 = 0 ∧
    (ApiKeys.cleanupExpiredKeys store now).2.length = store.length ∧
    (∀ (i : Nat) (k : ApiKeys.ApiKeyRecord), store[i]? = some k →
      (ApiKeys.cleanupExpiredKeys store now).2[i]? =
        some (if k.expiresAt ≤ now ∧ k.isActive then
          { k with isActive := false, expiredAt := some now } else k)) := by
  have hnot := ApiKeys.cleanup_mem_not_flippable store now
  refine ⟨?_, ?_, ?_, ?_⟩
  · rw [ApiKeys.cleanup_snd]
    calc (ApiKeys.cleanupExpiredKeys store now).2.map
            (fun key => if key.expiresAt ≤ now ∧ key.isActive then
              { key with isActive := false, expiredAt := some now } else key)
        = (ApiKeys.cleanupExpiredKeys store now).2.map id := by
          refine List.map_congr_left ?_
          intro k hk
          rw [if_neg (hnot k hk)]
          rfl
      _ = (ApiKeys.cleanupExpiredKeys store now).2 := List.map_id _
  · rw [ApiKeys.cleanup_fst]
    have hfil : (ApiKeys.cleanupExpiredKeys store now).2.filter
        (fun key => key.expiresAt ≤ now ∧ key.isActive) = [] := by
      rw [List.filter_eq_nil_iff]
      intro k hk
      simpa using hnot k hk
    rw [hfil]
    rfl
  · rw [ApiKeys.cleanup_snd]
    exact List.length_map store _
  · intro i k hk
    rw [ApiKeys.cleanup_snd, List.getElem?_map, hk]
    rfl

/-- Witness for C8 on a two-record store (one active-but-expired key, one
revoked key) cleaned at time 200. -/
theorem cleanup_expired_keys_idempotent_witness :
    ([ApiKeys.sampleExpiredKey, ApiKeys.sampleRevokedKey][0]? =
      some ApiKeys.sampleExpiredKey) ∧
    (ApiKeys.cleanupExpiredKeys
      (ApiKeys.cleanupExpiredKeys
        [ApiKeys.sampleExpiredKey, ApiKeys.sampleRevokedKey] 200).2 200).1 = 0 ∧
    (ApiKeys.cleanupExpiredKeys
      [ApiKeys.sampleExpiredKey, ApiKeys.sampleRevokedKey] 200).2[0]? =
      some (if ApiKeys.sampleExpiredKey.expiresAt ≤ 200 ∧
              ApiKeys.sampleExpiredKey.isActive then
        { ApiKeys.sampleExpiredKey with
          isActive := false, expiredAt := some 200 }
      else ApiKeys.sampleExpiredKey) :=
  ⟨by decide,
   (cleanup_expired_keys_idempotent
     [ApiKeys.sampleExpiredKey, ApiKeys.sampleRevokedKey] 200).2.1,
   (cleanup_expired_keys_idempotent
     [ApiKeys.sampleExpiredKey, ApiKeys.sampleRevokedKey] 200).2.2.2
     0 ApiKeys.sampleExpiredKey (by decide)⟩

/-- C6: after `storeResetToken` runs a second time for a user (issuing
`td.token`), validating the previously issued token fails with
`Invalid token`: the user record's single set of reset fields is
overwritten, so at most one reset token per user is live and the old one is
implicitly invalidated.  The hypothesis `hold` states that the old token
was held only by the user being overwritten (the first record with that
email), as the per-user storage guarantees. -/
theorem reset_token_overwrite_invalidates (users : List UserRec)
    (email oldToken : String) (td : PasswordResetSecurity.ResetTokenData)
    (now : Nat) (tok : String) (users' : List UserRec)
    (hstore : PasswordResetSecurity.storeResetToken users email td =
      some (tok, users'))
    (hne : oldToken ≠ td.token)
    (hold : ∀ (j : Nat) (u : UserRec), users[j]? = some u →
      u.resetToken = some oldToken →
      users.findIdx? (fun u => u.email = email) = some j) :
    PasswordResetSecurity.validateResetToken users' oldToken now =
      .invalid "Invalid token" := by
  unfold PasswordResetSecurity.storeResetToken at hstore
  rcases hidx : users.findIdx? (fun u => u.email = email) with _ | i
  · simp only [hidx] at hstore
    cases hstore
  · simp only [hidx] at hstore
    obtain ⟨hi, -, -⟩ := List.findIdx?_eq_some_iff_getElem.mp hidx
    have hget : users[i]? = some users[i] := List.getElem?_eq_getElem hi
    simp only [hget] at hstore
    injection hstore with hstore
    have husers' : users' =
        users.set i
          { users[i] with
            resetToken := some td.token,
            resetTokenExpires := some td.expires,
            resetTokenCreated := some td.created,
            resetTokenUsed := some td.used } := by
      have := congrArg Prod.snd hstore
      exact this.symm
    have hnone : users'.find? (fun u => u.resetToken = some oldToken) = none := by
      rw [List.find?_eq_none]
      intro x hx hpx
      simp only [decide_eq_true_eq] at hpx
      obtain ⟨j, hj⟩ := List.mem_iff_getElem?.mp hx
      rw [husers'] at hj
      by_cases hji : j = i
      · subst hji
        rw [List.getElem?_set_self hi] at hj
        injection hj with hj
        rw [← hj] at hpx
        simp only at hpx
        injection hpx with hpx
        exact hne hpx.symm
      · rw [List.getElem?_set_ne (fun h => hji h.symm)] at hj
        have := hold j x hj hpx
        rw [hidx] at this
        injection this with this
        exact hji this.symm
    unfold PasswordResetSecurity.validateResetToken
    rw [hnone]

namespace PasswordResetSecurity

/-- A user currently holding reset token `"tokOld"`. -/
def sampleUser : UserRec :=
  { userId := "u1", username := "alice", email := "a@x.com", admin := false,
    resetToken := some "tokOld", resetTokenExpires := some 3600000,
    resetTokenCreated := some 0, resetTokenUsed := some false }

/-- The same user after a second `storeResetToken` issued `"tokNew"`. -/
def sampleUserNew : UserRec :=
  { userId := "u1", username := "alice", email := "a@x.com", admin := false,
    resetToken := some "tokNew", resetTokenExpires := some 7200000,
    resetTokenCreated := some 3600, resetTokenUsed := some false }

end PasswordResetSecurity

/-- Witness for C6: issuing `"tokNew"` over `"tokOld"` for the single user
makes the old token invalid. -/
theorem reset_token_overwrite_invalidates_witness :
    (PasswordResetSecurity.storeResetToken [PasswordResetSecurity.sampleUser]
      "a@x.com" ⟨"tokNew", 7200000, 3600, false⟩ =
      some ("tokNew", [PasswordResetSecurity.sampleUserNew])) ∧
    ("tokOld" : String) ≠ "tokNew" ∧
    PasswordResetSecurity.validateResetToken
      [PasswordResetSecurity.sampleUserNew] "tokOld" 5000 =
      .invalid "Invalid token" :=
  ⟨by decide, by decide,
   reset_token_overwrite_invalidates [PasswordResetSecurity.sampleUser]
     "a@x.com" "tokOld" ⟨"tokNew", 7200000, 3600, false⟩ 5000 "tokNew"
     [PasswordResetSecurity.sampleUserNew]
     (by decide) (by decide)
     (fun j u hj hu => by
       cases j with
       | zero => decide
       | succ n =>
         rw [List.getElem?_cons_succ] at hj
         simp at hj)⟩

/-- C9: for a well-formed email, the `POST /auth/reset-password` handler
redirects to exactly `/auth/reset-password?msg=PasswordSent` for every
users table — whether or not any account carries the email — so two runs
differing only in account existence are externally indistinguishable
(timing aside). -/
theorem reset_request_email_oblivious (users : List UserRec)
    (sanitizedEmail tokenValue : String) (now : Nat) :
    (AuthRoutes.resetPasswordPost users true sanitizedEmail tokenValue now).1 =
      "/auth/reset-password?msg=PasswordSent" ∧
    (∀ usersB : List UserRec,
      (AuthRoutes.resetPasswordPost users true sanitizedEmail tokenValue now).1 =
      (AuthRoutes.resetPasswordPost usersB true sanitizedEmail tokenValue now).1) := by
  have main : ∀ us : List UserRec,
      (AuthRoutes.resetPasswordPost us true sanitizedEmail tokenValue now).1 =
        "/auth/reset-password?msg=PasswordSent" := by
    intro us
    unfold AuthRoutes.resetPasswordPost
    rcases hfind : us.find? (fun u => u.email = sanitizedEmail) with _ | u
    · simp only [hfind]
      rfl
    · have hmem := List.mem_of_find?_eq_some hfind
      have hp := List.find?_some hfind
      have hany : (us.findIdx? (fun u => u.email = sanitizedEmail)).isSome := by
        rw [List.findIdx?_isSome]
        exact List.any_eq_true.mpr ⟨u, hmem, hp⟩
      obtain ⟨i, hi⟩ := Option.isSome_iff_exists.mp hany
      obtain ⟨hlt, -, -⟩ := List.findIdx?_eq_some_iff_getElem.mp hi
      simp only [hfind]
      unfold PasswordResetSecurity.storeResetToken
      simp only [hi, List.getElem?_eq_getElem hlt]
      rfl
  exact ⟨main users, fun usersB => (main users).trans (main usersB).symm⟩
